import Mathlib

/-!
# docs-site/docusaurus.config.js

A shallow embedding of the one module of the repository, the Docusaurus site
configuration, and of the part of the JavaScript host it touches when the module is
evaluated: `require`, `require.resolve`, property reads, the template literal with
`new Date().getFullYear()`, and JSON conversion of the exported value.
-/

namespace DocsSite

/-! ## JavaScript values -/

/-- A Number value. A finite value other than negative zero is kept as the pair `m`, `e`
standing for `m * 2 ^ e`; no arithmetic is done on it. -/
inductive JsNumber where
  | nan
  | posInf
  | negInf
  | negZero
  | finite (m : Int) (e : Int)
  deriving DecidableEq, Repr

/-- A JavaScript value as the module can meet it: primitives, arrays, plain objects as ordered
lists of own string-keyed data properties, and callables (with their own properties, the
code being left abstract). -/
inductive JsVal where
  | undefined
  | null
  | bool (b : Bool)
  | num (n : JsNumber)
  | str (s : String)
  | arr (items : List JsVal)
  | obj (props : List (String × JsVal))
  | func (props : List (String × JsVal))

/-- What an evaluation can throw. -/
inductive JsError where
  | moduleNotFound (request : String)
  | typeError (key : String)
  | thrown (value : JsVal)

/-- Own data property `key` in a property list; `undefined` when there is none. -/
def lookupProp : List (String × JsVal) → String → JsVal
  | [], _ => .undefined
  | (k, v) :: rest, key => if key = k then v else lookupProp rest key

/-- The field `key` of a record value; `undefined` on anything that carries no such own property. -/
def JsVal.get (v : JsVal) (key : String) : JsVal :=
  match v with
  | .obj ps => lookupProp ps key
  | .func ps => lookupProp ps key
  | _ => .undefined

/-- The field reached by following `path` from `v`, one `get` per name. -/
def JsVal.getPath (v : JsVal) : List String → JsVal
  | [] => v
  | k :: rest => (v.get k).getPath rest

/-- The member expression `v.key` (also the destructuring `const { key } = v`), for a `key` that
no built-in prototype defines: a TypeError on `undefined` and `null`, the own property otherwise. -/
def JsVal.readProp (v : JsVal) (key : String) : Except JsError JsVal :=
  match v with
  | .undefined => .error (.typeError key)
  | .null => .error (.typeError key)
  | w => .ok (w.get key)

/-! ## The clock: `new Date().getFullYear()` -/

/-- Milliseconds in a day (ECMAScript `msPerDay`). -/
def msPerDay : Int := 86400000

/-- ECMAScript `DayFromYear(y)`: the day number of 1 January of year `y`. -/
def dayFromYear (y : Int) : Int :=
  365 * (y - 1970) + (y - 1969) / 4 - (y - 1901) / 100 + (y - 1601) / 400

/-- The year that contains day number `d` (days since 1 January 1970), through the 400-, 100-,
4- and 1-year cycles of the proleptic Gregorian calendar. -/
def yearFromDay (d : Int) : Int :=
  let n := d + 719162
  let q400 := n / 146097
  let r := n % 146097
  let c := min (r / 36524) 3
  let r2 := r - c * 36524
  let q4 := r2 / 1461
  let r3 := r2 % 1461
  let a := min (r3 / 365) 3
  400 * q400 + 100 * c + 4 * q4 + a + 1

/-- ECMAScript `YearFromTime(t)` for a time value `t` in milliseconds. -/
def yearFromTime (t : Int) : Int := yearFromDay (t / msPerDay)

/-! ## The environment of one evaluation of the module -/

/-- What the host supplies: module loading, module resolution, the current time value and the
local time zone adjustment (milliseconds to add to a UTC time value). -/
structure Env where
  require : String → Except JsError JsVal
  resolve : String → Except JsError String
  now : Int
  localTZA : Int → Int

/-- The value of `new Date().getFullYear()`: the year of the current local time. -/
def getFullYear (env : Env) : Int := yearFromTime (env.now + env.localTZA env.now)

/-- The same host with another clock: time value `now` and zone adjustment `tza`. -/
def Env.withClock (env : Env) (now : Int) (tza : Int → Int) : Env :=
  ⟨env.require, env.resolve, now, tza⟩

/-! ## The module -/

/-- The object literal bound to `config`, with the five computed values as arguments: the two
resolved paths, the full year, and the two theme values read off `themes`. -/
def config (sidebarPath customCss : String) (year : Int) (github dracula : JsVal) : JsVal :=
  .obj [
    ("title", .str "Data Governance Pipeline"),
    ("tagline", .str "End-to-end ETL with embedded DQ validation framework"),
    ("favicon", .str "img/favicon.ico"),
    ("url", .str "https://escuhlade.github.io"),
    ("baseUrl", .str "/data-governance-pipeline/"),
    ("organizationName", .str "Escuhlade"),
    ("projectName", .str "data-governance-pipeline"),
    ("deploymentBranch", .str "gh-pages"),
    ("trailingSlash", .bool false),
    ("onBrokenLinks", .str "throw"),
    ("onBrokenMarkdownLinks", .str "warn"),
    ("i18n", .obj [
      ("defaultLocale", .str "en"),
      ("locales", .arr [.str "en"])]),
    ("markdown", .obj [
      ("mermaid", .bool true)]),
    ("themes", .arr [.str "@docusaurus/theme-mermaid"]),
    ("presets", .arr [
      .arr [
        .str "classic",
        .obj [
          ("docs", .obj [
            ("sidebarPath", .str sidebarPath),
            ("routeBasePath", .str "/docs")]),
          ("blog", .bool false),
          ("theme", .obj [
            ("customCss", .str customCss)])]]]),
    ("themeConfig", .obj [
      ("navbar", .obj [
        ("title", .str "Data Governance Pipeline"),
        ("items", .arr [
          .obj [
            ("type", .str "docSidebar"),
            ("sidebarId", .str "tutorialSidebar"),
            ("position", .str "left"),
            ("label", .str "Docs")],
          .obj [
            ("href", .str "https://github.com/Escuhlade/data-governance-pipeline"),
            ("label", .str "GitHub"),
            ("position", .str "right")]])]),
      ("footer", .obj [
        ("style", .str "dark"),
        ("copyright", .str ("Built by Aaiyan Virji · " ++ toString year))]),
      ("prism", .obj [
        ("theme", github),
        ("darkTheme", dracula),
        ("additionalLanguages", .arr [.str "python", .str "bash"])]),
      ("colorMode", .obj [
        ("defaultMode", .str "dark"),
        ("disableSwitch", .bool false)])])]

/-- Evaluation of the module, in source order: line 2 loads `prism-react-renderer` and
destructures `themes`; the literal then resolves `./sidebars.js` and `./src/css/custom.css`,
reads the clock, and reads `themes.github` and `themes.dracula`; the result is the value
assigned to `module.exports`. -/
def evalModule (env : Env) : Except JsError JsVal := do
  let prism ← env.require "prism-react-renderer"
  let themes ← prism.readProp "themes"
  let sidebarPath ← env.resolve "./sidebars.js"
  let customCss ← env.resolve "./src/css/custom.css"
  let year := getFullYear env
  let github ← themes.readProp "github"
  let dracula ← themes.readProp "dracula"
  pure (config sidebarPath customCss year github dracula)

/-! ## JSON conversion of a value -/

/-- A JSON document: what a JSON text denotes. -/
inductive Json where
  | null
  | bool (b : Bool)
  | num (m : Int) (e : Int)
  | str (s : String)
  | arr (items : List Json)
  | obj (members : List (String × Json))

/-- What `JSON.stringify` does with a value: a `toJSON` hook decides what is written (the
code of a callable being abstract, the text is then not determined here), nothing is written,
or a document is written. -/
inductive Written (α : Type) where
  | hook
  | nothing
  | wrote (a : α)

/-- The outcome with `f` applied to what was written. -/
def Written.map {α β : Type} (f : α → β) : Written α → Written β
  | .hook => .hook
  | .nothing => .nothing
  | .wrote a => .wrote (f a)

/-- The property list carries a callable `toJSON`: `JSON.stringify` calls it and writes its
result in place of the value. -/
def hasToJSON (ps : List (String × JsVal)) : Bool :=
  match lookupProp ps "toJSON" with
  | .func _ => true
  | _ => false

mutual
/-- The JSON document `JSON.stringify` writes for a value. An object or a callable with a
`toJSON` hook is left to the hook; otherwise `undefined` and callables write nothing, and the
numbers that are not finite write `null`. -/
def toJson : JsVal → Written Json
  | .undefined => .nothing
  | .func ps => if hasToJSON ps then .hook else .nothing
  | .null => .wrote .null
  | .bool b => .wrote (.bool b)
  | .num (.finite m e) => .wrote (.num m e)
  | .num .negZero => .wrote (.num 0 0)
  | .num .nan => .wrote .null
  | .num .posInf => .wrote .null
  | .num .negInf => .wrote .null
  | .str s => .wrote (.str s)
  | .arr xs =>
    match toJsonItems xs with
    | none => .hook
    | some js => .wrote (.arr js)
  | .obj ps =>
    if hasToJSON ps then .hook
    else
      match toJsonProps ps with
      | none => .hook
      | some ms => .wrote (.obj ms)
/-- Array elements: an element that writes nothing is written as `null`; `none` when a hook
decides one of them. -/
def toJsonItems : List JsVal → Option (List Json)
  | [] => some []
  | x :: xs =>
    match toJson x, toJsonItems xs with
    | .hook, _ => none
    | .nothing, some js => some (.null :: js)
    | .wrote j, some js => some (j :: js)
    | _, none => none
/-- Object properties: a property whose value writes nothing is left out; `none` when a hook
decides one of the values. -/
def toJsonProps : List (String × JsVal) → Option (List (String × Json))
  | [] => some []
  | (k, v) :: ps =>
    match toJson v, toJsonProps ps with
    | .hook, _ => none
    | .nothing, some ms => some ms
    | .wrote j, some ms => some ((k, j) :: ms)
    | _, none => none
end

mutual
/-- The value `JSON.parse` builds from a JSON document. -/
def ofJson : Json → JsVal
  | .null => .null
  | .bool b => .bool b
  | .num m e => .num (.finite m e)
  | .str s => .str s
  | .arr xs => .arr (ofJsonItems xs)
  | .obj ps => .obj (ofJsonMembers ps)
/-- Elements of a parsed array. -/
def ofJsonItems : List Json → List JsVal
  | [] => []
  | x :: xs => ofJson x :: ofJsonItems xs
/-- Properties of a parsed object. -/
def ofJsonMembers : List (String × Json) → List (String × JsVal)
  | [] => []
  | (k, v) :: ps => (k, ofJson v) :: ofJsonMembers ps
end

/-- Serialise then deserialise: `JSON.parse(JSON.stringify(v))`, where a document is written. -/
def jsonRoundTrip (v : JsVal) : Written JsVal := (toJson v).map ofJson

mutual
/-- The value is JSON data throughout: `null`, booleans, finite numbers other than negative
zero, strings, arrays of JSON data, objects whose property values are JSON data. -/
def isJsonData : JsVal → Bool
  | .undefined => false
  | .func _ => false
  | .null => true
  | .bool _ => true
  | .num (.finite _ _) => true
  | .num .negZero => false
  | .num .nan => false
  | .num .posInf => false
  | .num .negInf => false
  | .str _ => true
  | .arr xs => allJsonData xs
  | .obj ps => allJsonProps ps
/-- Every element is JSON data. -/
def allJsonData : List JsVal → Bool
  | [] => true
  | x :: xs => isJsonData x && allJsonData xs
/-- Every property value is JSON data. -/
def allJsonProps : List (String × JsVal) → Bool
  | [] => true
  | (_, v) :: ps => isJsonData v && allJsonProps ps
end

/-! ## Reading the record -/

/-- The value is `undefined` or `null`. -/
def JsVal.nullish (v : JsVal) : Bool :=
  match v with
  | .undefined => true
  | .null => true
  | _ => false

/-- The value is the string `s`. -/
def JsVal.isStr (v : JsVal) (s : String) : Bool :=
  match v with
  | .str t => t == s
  | _ => false

/-- The value is a string of at least one character. -/
def JsVal.isNonEmptyStr (v : JsVal) : Bool :=
  match v with
  | .str t => t != ""
  | _ => false

/-- A navbar item of the sidebar-link variant: its `type` is `docSidebar`. -/
def isSidebarLink (item : JsVal) : Bool := (item.get "type").isStr "docSidebar"

/-- A navbar item is well formed: a sidebar-link carries a non-empty `sidebarId`, any other item
(external-link) a non-empty `href`. -/
def wellFormedNavItem (item : JsVal) : Bool :=
  if isSidebarLink item then (item.get "sidebarId").isNonEmptyStr
  else (item.get "href").isNonEmptyStr

/-- The values of the link-integrity enumeration. -/
def brokenLinkPolicies : List String := ["throw", "warn", "ignore"]

/-- Where the footer copyright text sits in the record. -/
def copyrightPath : List String := ["themeConfig", "footer", "copyright"]

/-! ## Sample environments -/

/-- A theme value of the shape `prism-react-renderer` exports for `themes.github`. -/
def sampleGithubTheme : JsVal :=
  .obj [
    ("plain", .obj [("color", .str "#393A34"), ("backgroundColor", .str "#f6f8fa")]),
    ("styles", .arr [
      .obj [
        ("types", .arr [.str "comment", .str "prolog", .str "doctype", .str "cdata"]),
        ("style", .obj [("color", .str "#999988"), ("fontStyle", .str "italic")])],
      .obj [
        ("types", .arr [.str "string", .str "attr-value"]),
        ("style", .obj [("color", .str "#e3116c")])]])]

/-- A theme value of the shape `prism-react-renderer` exports for `themes.dracula`. -/
def sampleDraculaTheme : JsVal :=
  .obj [
    ("plain", .obj [("color", .str "#F8F8F2"), ("backgroundColor", .str "#282A36")]),
    ("styles", .arr [
      .obj [
        ("types", .arr [.str "prolog", .str "constant", .str "builtin"]),
        ("style", .obj [("color", .str "rgb(189, 147, 249)")])],
      .obj [
        ("types", .arr [.str "comment"]),
        ("style", .obj [("color", .str "rgb(98, 114, 164)")])]])]

/-- Module loading that knows one package, whose exports carry `themes` with the value given. -/
def requireWith (themes : JsVal) (request : String) : Except JsError JsVal :=
  if request = "prism-react-renderer" then
    .ok (.obj [("Highlight", .func []), ("themes", themes)])
  else .error (.moduleNotFound request)

/-- Resolution in a checkout at `/site` where both files exist. -/
def resolveBoth (request : String) : Except JsError String :=
  if request = "./sidebars.js" then .ok "/site/sidebars.js"
  else if request = "./src/css/custom.css" then .ok "/site/src/css/custom.css"
  else .error (.moduleNotFound request)

/-- Resolution in a checkout at `/site` from which `sidebars.js` is missing. -/
def resolveNoSidebars (request : String) : Except JsError String :=
  if request = "./src/css/custom.css" then .ok "/site/src/css/custom.css"
  else .error (.moduleNotFound request)

/-- A complete checkout, evaluated at 2026-11-06T12:00:00Z in a UTC time zone. -/
def sampleEnv : Env where
  require := requireWith (.obj [("dracula", sampleDraculaTheme), ("github", sampleGithubTheme)])
  resolve := resolveBoth
  now := 1793966400000
  localTZA := fun _ => 0

/-- The same checkout without `sidebars.js`. -/
def missingSidebarsEnv : Env where
  require := sampleEnv.require
  resolve := resolveNoSidebars
  now := sampleEnv.now
  localTZA := sampleEnv.localTZA

/-- The record `sampleEnv` produces. -/
def sampleConfig : JsVal :=
  config "/site/sidebars.js" "/site/src/css/custom.css" 2026 sampleGithubTheme sampleDraculaTheme

/-! ## What a successful evaluation returns -/

/-- A successful evaluation went through every step of the module and returns the literal with
the five computed values filled in. -/
theorem evalModule_eq_config {env : Env} {cfg : JsVal} (h : evalModule env = .ok cfg) :
    ∃ prism themes sidebarPath customCss github dracula,
      env.require "prism-react-renderer" = .ok prism ∧
      prism.readProp "themes" = .ok themes ∧
      env.resolve "./sidebars.js" = .ok sidebarPath ∧
      env.resolve "./src/css/custom.css" = .ok customCss ∧
      themes.readProp "github" = .ok github ∧
      themes.readProp "dracula" = .ok dracula ∧
      cfg = config sidebarPath customCss (getFullYear env) github dracula := by
  unfold evalModule at h
  cases h1 : env.require "prism-react-renderer" with
  | error e => rw [h1] at h; cases h
  | ok prism =>
    cases h2 : prism.readProp "themes" with
    | error e => rw [h1] at h; simp only [bind, Except.bind, h2] at h; cases h
    | ok themes =>
      cases h3 : env.resolve "./sidebars.js" with
      | error e => rw [h1] at h; simp only [bind, Except.bind, h2, h3] at h; cases h
      | ok sp =>
        cases h4 : env.resolve "./src/css/custom.css" with
        | error e => rw [h1] at h; simp only [bind, Except.bind, h2, h3, h4] at h; cases h
        | ok css =>
          cases h5 : themes.readProp "github" with
          | error e => rw [h1] at h; simp only [bind, Except.bind, h2, h3, h4, h5] at h; cases h
          | ok gh =>
            cases h6 : themes.readProp "dracula" with
            | error e =>
              rw [h1] at h; simp only [bind, Except.bind, h2, h3, h4, h5, h6] at h; cases h
            | ok dr =>
              rw [h1] at h
              simp only [bind, Except.bind, h2, h3, h4, h5, h6, pure, Except.pure] at h
              refine ⟨prism, themes, sp, css, gh, dr, rfl, h2, rfl, rfl, h5, h6, ?_⟩
              cases h; rfl

/-- The shape alone: a successful evaluation returns `config` at some arguments. -/
theorem evalModule_shape {env : Env} {cfg : JsVal} (h : evalModule env = .ok cfg) :
    ∃ sidebarPath customCss github dracula,
      cfg = config sidebarPath customCss (getFullYear env) github dracula := by
  obtain ⟨_, _, sp, css, gh, dr, _, _, _, _, _, _, hc⟩ := evalModule_eq_config h
  exact ⟨sp, css, gh, dr, hc⟩

/-! ## Paths -/

/-- Nothing is reachable from `undefined`. -/
theorem getPath_undefined (p : List String) : JsVal.undefined.getPath p = .undefined := by
  induction p with
  | nil => rfl
  | cons k rest ih => simpa [JsVal.getPath, JsVal.get] using ih

/-- A string has no fields. -/
theorem getPath_str (s : String) (k : String) (p : List String) :
    (JsVal.str s).getPath (k :: p) = .undefined := by
  simp [JsVal.getPath, JsVal.get, getPath_undefined]

/-- Two literals that differ in the year agree at every path that does not lead to the
copyright text. -/
theorem config_getPath_year (sp css : String) (y1 y2 : Int) (gh dr : JsVal) (p : List String)
    (hp : ¬ p <+: copyrightPath) :
    (config sp css y1 gh dr).getPath p = (config sp css y2 gh dr).getPath p := by
  match p with
  | [] => exact absurd List.nil_prefix hp
  | k :: p1 =>
    by_cases hk : k = "themeConfig"
    · subst hk
      match p1 with
      | [] => exact absurd (by decide) hp
      | k2 :: p2 =>
        by_cases hk2 : k2 = "footer"
        · subst hk2
          match p2 with
          | [] => exact absurd (by decide) hp
          | k3 :: p3 =>
            by_cases hk3 : k3 = "copyright"
            · subst hk3
              match p3 with
              | [] => exact absurd (by decide) hp
              | k4 :: p4 =>
                show (JsVal.str _).getPath (k4 :: p4) = (JsVal.str _).getPath (k4 :: p4)
                rw [getPath_str, getPath_str]
            · simp [config, JsVal.getPath, JsVal.get, lookupProp, hk3]
        · simp [config, JsVal.getPath, JsVal.get, lookupProp, hk2]
    · simp [config, JsVal.getPath, JsVal.get, lookupProp, hk]

/-! ## JSON round trip of a value -/

/-- A property list whose values are JSON data holds no callable under any key. -/
theorem lookupProp_not_func (key : String) : ∀ ps : List (String × JsVal),
    allJsonProps ps = true → ∀ qs, lookupProp ps key ≠ .func qs
  | [], _, qs => by simp [lookupProp]
  | (k, v) :: ps, h, qs => by
    simp only [allJsonProps, Bool.and_eq_true] at h
    simp only [lookupProp]
    split
    · intro hv
      rw [hv] at h
      simp [isJsonData] at h
    · exact lookupProp_not_func key ps h.2 qs

/-- Property values that are JSON data leave no `toJSON` hook to call. -/
theorem hasToJSON_of_allJsonProps (ps : List (String × JsVal)) (h : allJsonProps ps = true) :
    hasToJSON ps = false := by
  unfold hasToJSON
  split
  · next qs hq => exact absurd hq (lookupProp_not_func "toJSON" ps h qs)
  · rfl

mutual
/-- JSON data is written in full and parsed back unchanged. -/
theorem roundTrip_of_isJsonData : ∀ v : JsVal, isJsonData v = true →
    ∃ j, toJson v = .wrote j ∧ ofJson j = v
  | .undefined, h => by simp [isJsonData] at h
  | .func _, h => by simp [isJsonData] at h
  | .null, _ => ⟨.null, by simp [toJson], by simp [ofJson]⟩
  | .bool b, _ => ⟨.bool b, by simp [toJson], by simp [ofJson]⟩
  | .num (.finite m e), _ => ⟨.num m e, by simp [toJson], by simp [ofJson]⟩
  | .num .negZero, h => by simp [isJsonData] at h
  | .num .nan, h => by simp [isJsonData] at h
  | .num .posInf, h => by simp [isJsonData] at h
  | .num .negInf, h => by simp [isJsonData] at h
  | .str s, _ => ⟨.str s, by simp [toJson], by simp [ofJson]⟩
  | .arr xs, h => by
    obtain ⟨js, hjs, hx⟩ := roundTrip_items xs (by simpa [isJsonData] using h)
    exact ⟨.arr js, by simp [toJson, hjs], by simp [ofJson, hx]⟩
  | .obj ps, h => by
    have hps : allJsonProps ps = true := by simpa [isJsonData] using h
    obtain ⟨ms, hms, hx⟩ := roundTrip_props ps hps
    exact ⟨.obj ms, by simp [toJson, hms, hasToJSON_of_allJsonProps ps hps],
      by simp [ofJson, hx]⟩
/-- Elements that are JSON data come back unchanged. -/
theorem roundTrip_items : ∀ xs : List JsVal, allJsonData xs = true →
    ∃ js, toJsonItems xs = some js ∧ ofJsonItems js = xs
  | [], _ => ⟨[], by simp [toJsonItems], by simp [ofJsonItems]⟩
  | x :: xs, h => by
    simp only [allJsonData, Bool.and_eq_true] at h
    obtain ⟨j, hj, hv⟩ := roundTrip_of_isJsonData x h.1
    obtain ⟨js, hjs, hx⟩ := roundTrip_items xs h.2
    exact ⟨j :: js, by simp [toJsonItems, hj, hjs], by simp [ofJsonItems, hv, hx]⟩
/-- Properties whose values are JSON data come back unchanged. -/
theorem roundTrip_props : ∀ ps : List (String × JsVal), allJsonProps ps = true →
    ∃ ms, toJsonProps ps = some ms ∧ ofJsonMembers ms = ps
  | [], _ => ⟨[], by simp [toJsonProps], by simp [ofJsonMembers]⟩
  | (k, v) :: ps, h => by
    simp only [allJsonProps, Bool.and_eq_true] at h
    obtain ⟨j, hj, hv⟩ := roundTrip_of_isJsonData v h.1
    obtain ⟨ms, hms, hx⟩ := roundTrip_props ps h.2
    exact ⟨(k, j) :: ms, by simp [toJsonProps, hj, hms], by simp [ofJsonMembers, hv, hx]⟩
end

/-- Parsing keeps the number of members. -/
theorem length_ofJsonMembers (ms : List (String × Json)) :
    (ofJsonMembers ms).length = ms.length := by
  induction ms with
  | nil => simp [ofJsonMembers]
  | cons m ms ih => obtain ⟨k, j⟩ := m; simp [ofJsonMembers, ih]

/-- Writing never adds a property. -/
theorem length_toJsonProps_le : ∀ (ps : List (String × JsVal)) (ms : List (String × Json)),
    toJsonProps ps = some ms → ms.length ≤ ps.length
  | [], ms, h => by
    simp only [toJsonProps, Option.some.injEq] at h
    subst h; simp
  | (k, v) :: ps, ms, h => by
    cases hv : toJson v with
    | hook => simp [toJsonProps, hv] at h
    | nothing =>
      cases hp : toJsonProps ps with
      | none => simp [toJsonProps, hv, hp] at h
      | some ms1 =>
        simp only [toJsonProps, hv, hp, Option.some.injEq] at h
        subst h
        have := length_toJsonProps_le ps ms1 hp
        simp only [List.length_cons]; omega
    | wrote j =>
      cases hp : toJsonProps ps with
      | none => simp [toJsonProps, hv, hp] at h
      | some ms1 =>
        simp only [toJsonProps, hv, hp, Option.some.injEq] at h
        subst h
        have := length_toJsonProps_le ps ms1 hp
        simp only [List.length_cons]; omega

mutual
/-- A value that comes back unchanged is JSON data. -/
theorem isJsonData_of_roundTrip : ∀ (v : JsVal) (j : Json), toJson v = .wrote j →
    ofJson j = v → isJsonData v = true
  | .undefined, _, h, _ => by simp [toJson] at h
  | .func ps, _, h, _ => by
    simp only [toJson] at h
    split at h <;> cases h
  | .null, _, _, _ => by simp [isJsonData]
  | .bool _, _, _, _ => by simp [isJsonData]
  | .num (.finite _ _), _, _, _ => by simp [isJsonData]
  | .num .negZero, _, h, h2 => by simp [toJson] at h; subst h; simp [ofJson] at h2
  | .num .nan, _, h, h2 => by simp [toJson] at h; subst h; simp [ofJson] at h2
  | .num .posInf, _, h, h2 => by simp [toJson] at h; subst h; simp [ofJson] at h2
  | .num .negInf, _, h, h2 => by simp [toJson] at h; subst h; simp [ofJson] at h2
  | .str _, _, _, _ => by simp [isJsonData]
  | .arr xs, _, h, h2 => by
    cases hjs : toJsonItems xs with
    | none => simp [toJson, hjs] at h
    | some js =>
      simp only [toJson, hjs, Written.wrote.injEq] at h
      subst h
      simp only [ofJson, JsVal.arr.injEq] at h2
      simpa [isJsonData] using allJsonData_of_roundTrip xs js hjs h2
  | .obj ps, _, h, h2 => by
    cases hh : hasToJSON ps with
    | true => simp [toJson, hh] at h
    | false =>
      cases hms : toJsonProps ps with
      | none => simp [toJson, hh, hms] at h
      | some ms =>
        simp only [toJson, hh, hms, Bool.false_eq_true, if_false, Written.wrote.injEq] at h
        subst h
        simp only [ofJson, JsVal.obj.injEq] at h2
        simpa [isJsonData] using allJsonProps_of_roundTrip ps ms hms h2
/-- Elements that come back unchanged are JSON data. -/
theorem allJsonData_of_roundTrip : ∀ (xs : List JsVal) (js : List Json),
    toJsonItems xs = some js → ofJsonItems js = xs → allJsonData xs = true
  | [], _, _, _ => by simp [allJsonData]
  | x :: xs, js, h, h2 => by
    cases hx : toJson x with
    | hook => simp [toJsonItems, hx] at h
    | nothing =>
      cases hr : toJsonItems xs with
      | none => simp [toJsonItems, hx, hr] at h
      | some js1 =>
        simp only [toJsonItems, hx, hr, Option.some.injEq] at h
        subst h
        simp only [ofJsonItems, ofJson, List.cons.injEq] at h2
        rw [← h2.1] at hx
        simp [toJson] at hx
    | wrote j =>
      cases hr : toJsonItems xs with
      | none => simp [toJsonItems, hx, hr] at h
      | some js1 =>
        simp only [toJsonItems, hx, hr, Option.some.injEq] at h
        subst h
        simp only [ofJsonItems, List.cons.injEq] at h2
        simp [allJsonData, isJsonData_of_roundTrip x j hx h2.1,
          allJsonData_of_roundTrip xs js1 hr h2.2]
/-- Properties that come back unchanged hold JSON data. -/
theorem allJsonProps_of_roundTrip : ∀ (ps : List (String × JsVal)) (ms : List (String × Json)),
    toJsonProps ps = some ms → ofJsonMembers ms = ps → allJsonProps ps = true
  | [], _, _, _ => by simp [allJsonProps]
  | (k, v) :: ps, ms, h, h2 => by
    cases hv : toJson v with
    | hook => simp [toJsonProps, hv] at h
    | nothing =>
      cases hr : toJsonProps ps with
      | none => simp [toJsonProps, hv, hr] at h
      | some ms1 =>
        simp only [toJsonProps, hv, hr, Option.some.injEq] at h
        subst h
        have hl := congrArg List.length h2
        have h1 := length_ofJsonMembers ms1
        have h3 := length_toJsonProps_le ps ms1 hr
        simp only [List.length_cons] at hl
        omega
    | wrote j =>
      cases hr : toJsonProps ps with
      | none => simp [toJsonProps, hv, hr] at h
      | some ms1 =>
        simp only [toJsonProps, hv, hr, Option.some.injEq] at h
        subst h
        simp only [ofJsonMembers, List.cons.injEq, Prod.mk.injEq, true_and] at h2
        simp [allJsonProps, isJsonData_of_roundTrip v j hv h2.1,
          allJsonProps_of_roundTrip ps ms1 hr h2.2]
end

/-- The round trip reproduces a value exactly when the value is JSON data. -/
theorem jsonRoundTrip_eq_iff (v : JsVal) :
    jsonRoundTrip v = .wrote v ↔ isJsonData v = true := by
  constructor
  · intro h
    unfold jsonRoundTrip at h
    cases hj : toJson v with
    | hook => rw [hj] at h; simp [Written.map] at h
    | nothing => rw [hj] at h; simp [Written.map] at h
    | wrote j =>
      rw [hj] at h
      simp only [Written.map, Written.wrote.injEq] at h
      exact isJsonData_of_roundTrip v j hj h
  · intro h
    obtain ⟨j, hj, hv⟩ := roundTrip_of_isJsonData v h
    simp [jsonRoundTrip, Written.map, hj, hv]

/-- A `toJSON` hook on an object takes the writing out of the hands of the object: the
outcome is the hook, whatever the other properties are. -/
theorem toJson_obj_hook (ps : List (String × JsVal)) (h : hasToJSON ps = true) :
    toJson (.obj ps) = .hook := by
  simp [toJson, h]

/-- Everything the literal writes itself is JSON data: only the two theme values decide. -/
theorem isJsonData_config (sp css : String) (y : Int) (gh dr : JsVal) :
    isJsonData (config sp css y gh dr) = (isJsonData gh && isJsonData dr) := by
  simp [config, isJsonData, allJsonData, allJsonProps]

/-! ## The year of a time value -/

/-- The cycle counts behind `yearFromDay`: 400-year cycles `q`, centuries `c`, 4-year cycles
`q4`, years `a`, and the day `r3` within the 4-year cycle. -/
theorem yearFromDay_cycles (d : Int) : ∃ q c q4 a r3 : Int,
    yearFromDay d = 400 * q + 100 * c + 4 * q4 + a + 1 ∧
    d + 719162 = 146097 * q + 36524 * c + 1461 * q4 + r3 ∧
    0 ≤ c ∧ c ≤ 3 ∧ 0 ≤ q4 ∧ q4 ≤ 24 ∧ 0 ≤ a ∧ a ≤ 3 ∧
    365 * a ≤ r3 ∧ r3 < 1461 ∧ (a < 3 → r3 < 365 * (a + 1)) ∧
    (c < 3 → 1461 * q4 + r3 < 36524) ∧ 1461 * q4 + r3 ≤ 36524 := by
  refine ⟨(d + 719162) / 146097, min ((d + 719162) % 146097 / 36524) 3,
    ((d + 719162) % 146097 - min ((d + 719162) % 146097 / 36524) 3 * 36524) / 1461,
    min (((d + 719162) % 146097 - min ((d + 719162) % 146097 / 36524) 3 * 36524) % 1461 / 365) 3,
    ((d + 719162) % 146097 - min ((d + 719162) % 146097 / 36524) 3 * 36524) % 1461, rfl, ?_⟩
  simp only [min_def]
  split <;> split <;> omega

/-- Day `d` lies in the year computed for it: on or after its 1 January, before the next. -/
theorem dayFromYear_yearFromDay (d : Int) :
    dayFromYear (yearFromDay d) ≤ d ∧ d < dayFromYear (yearFromDay d + 1) := by
  obtain ⟨q, c, q4, a, r3, hy, hd, hc0, hc3, hq0, hq24, ha0, ha3, hlo, hr, hhi, hc, hr2⟩ :=
    yearFromDay_cycles d
  rw [hy]
  unfold dayFromYear
  have hcs : c = 0 ∨ c = 1 ∨ c = 2 ∨ c = 3 := by omega
  have has : a = 0 ∨ a = 1 ∨ a = 2 ∨ a = 3 := by omega
  rcases hcs with rfl | rfl | rfl | rfl <;> rcases has with rfl | rfl | rfl | rfl <;> omega

/-- Later years start on later days. -/
theorem dayFromYear_mono {y z : Int} (h : y ≤ z) : dayFromYear y ≤ dayFromYear z := by
  unfold dayFromYear; omega

/-- The ECMAScript definition of `YearFromTime(t)`: the largest year `y` whose
`TimeFromYear(y) = msPerDay * DayFromYear(y)` is at most `t`. -/
theorem yearFromTime_greatest (t y : Int) :
    msPerDay * dayFromYear y ≤ t ↔ y ≤ yearFromTime t := by
  have h := dayFromYear_yearFromDay (t / msPerDay)
  unfold yearFromTime
  have hd : msPerDay * dayFromYear y ≤ t ↔ dayFromYear y ≤ t / msPerDay := by
    unfold msPerDay; omega
  rw [hd]
  constructor
  · intro hy
    by_contra hlt
    have h1 : yearFromDay (t / msPerDay) + 1 ≤ y := by omega
    have h2 := dayFromYear_mono h1
    omega
  · intro hy
    have h2 := dayFromYear_mono hy
    omega

/-! ## Invariants of the exported record -/

/-- C1: in the exported record `i18n.defaultLocale` is `en`, `i18n.locales` is the sequence
`[en]`, and the default locale is a member of the locale sequence. -/
theorem defaultLocale_mem_locales (env : Env) (cfg : JsVal) (h : evalModule env = .ok cfg) :
    cfg.getPath ["i18n", "defaultLocale"] = .str "en" ∧
    cfg.getPath ["i18n", "locales"] = .arr [.str "en"] ∧
    ∃ locales, cfg.getPath ["i18n", "locales"] = .arr locales ∧
      cfg.getPath ["i18n", "defaultLocale"] ∈ locales := by
  obtain ⟨sp, css, gh, dr, rfl⟩ := evalModule_shape h
  exact ⟨rfl, rfl, [.str "en"], rfl, List.mem_singleton.mpr rfl⟩

/-- The record of the sample checkout satisfies the locale-membership check. -/
theorem defaultLocale_mem_locales_witness :
    evalModule sampleEnv = .ok sampleConfig ∧
    sampleConfig.getPath ["i18n", "defaultLocale"] = .str "en" ∧
    sampleConfig.getPath ["i18n", "locales"] = .arr [.str "en"] ∧
    ∃ locales, sampleConfig.getPath ["i18n", "locales"] = .arr locales ∧
      sampleConfig.getPath ["i18n", "defaultLocale"] ∈ locales :=
  ⟨rfl, defaultLocale_mem_locales sampleEnv sampleConfig rfl⟩

/-- C2: `themeConfig.navbar.items` holds exactly two items and each is a well-formed variant:
an item whose `type` is `docSidebar` carries a non-empty `sidebarId`, any other item a
non-empty `href`. The first item is the sidebar-link (`sidebarId` `tutorialSidebar`, no
`href`), the second is the external-link (no `type`, an `href`). -/
theorem navbar_items_well_formed (env : Env) (cfg : JsVal) (h : evalModule env = .ok cfg) :
    ∃ first second,
      cfg.getPath ["themeConfig", "navbar", "items"] = .arr [first, second] ∧
      (∀ item ∈ [first, second],
        wellFormedNavItem item = true ∧
        (isSidebarLink item = true → (item.get "sidebarId").isNonEmptyStr = true) ∧
        (isSidebarLink item = false → (item.get "href").isNonEmptyStr = true)) ∧
      isSidebarLink first = true ∧
      first.get "sidebarId" = .str "tutorialSidebar" ∧
      first.get "href" = .undefined ∧
      isSidebarLink second = false ∧
      second.get "type" = .undefined ∧
      second.get "href" = .str "https://github.com/Escuhlade/data-governance-pipeline" := by
  obtain ⟨sp, css, gh, dr, rfl⟩ := evalModule_shape h
  refine ⟨_, _, rfl, ?_, rfl, rfl, rfl, rfl, rfl, rfl⟩
  intro item hmem
  simp only [List.mem_cons, List.mem_singleton, List.not_mem_nil, or_false] at hmem
  rcases hmem with rfl | rfl
  · exact ⟨rfl, fun _ => rfl, fun hf => absurd hf (by decide)⟩
  · exact ⟨rfl, fun ht => absurd ht (by decide), fun _ => rfl⟩

/-- The two navbar items of the sample checkout are well formed. -/
theorem navbar_items_well_formed_witness :
    evalModule sampleEnv = .ok sampleConfig ∧
    ∃ first second,
      sampleConfig.getPath ["themeConfig", "navbar", "items"] = .arr [first, second] ∧
      (∀ item ∈ [first, second],
        wellFormedNavItem item = true ∧
        (isSidebarLink item = true → (item.get "sidebarId").isNonEmptyStr = true) ∧
        (isSidebarLink item = false → (item.get "href").isNonEmptyStr = true)) ∧
      isSidebarLink first = true ∧
      first.get "sidebarId" = .str "tutorialSidebar" ∧
      first.get "href" = .undefined ∧
      isSidebarLink second = false ∧
      second.get "type" = .undefined ∧
      second.get "href" = .str "https://github.com/Escuhlade/data-governance-pipeline" :=
  ⟨rfl, navbar_items_well_formed sampleEnv sampleConfig rfl⟩

/-- C3: `baseUrl` is a non-empty string whose first character and whose last character are
both the slash. -/
theorem baseUrl_slash_delimited (env : Env) (cfg : JsVal) (h : evalModule env = .ok cfg) :
    ∃ s, cfg.get "baseUrl" = .str s ∧ s ≠ "" ∧ s.front = '/' ∧ s.back = '/' := by
  obtain ⟨sp, css, gh, dr, rfl⟩ := evalModule_shape h
  exact ⟨"/data-governance-pipeline/", rfl, by decide, by decide, by decide⟩

/-- The base path of the sample checkout is slash-delimited. -/
theorem baseUrl_slash_delimited_witness :
    evalModule sampleEnv = .ok sampleConfig ∧
    ∃ s, sampleConfig.get "baseUrl" = .str s ∧ s ≠ "" ∧ s.front = '/' ∧ s.back = '/' :=
  ⟨rfl, baseUrl_slash_delimited sampleEnv sampleConfig rfl⟩

/-- C6: `onBrokenLinks` is `throw` and `onBrokenMarkdownLinks` is `warn`, and both are values
of the enumeration throw, warn, ignore. -/
theorem link_integrity_policy (env : Env) (cfg : JsVal) (h : evalModule env = .ok cfg) :
    cfg.get "onBrokenLinks" = .str "throw" ∧
    cfg.get "onBrokenMarkdownLinks" = .str "warn" ∧
    (∃ s, cfg.get "onBrokenLinks" = .str s ∧ s ∈ brokenLinkPolicies) ∧
    (∃ s, cfg.get "onBrokenMarkdownLinks" = .str s ∧ s ∈ brokenLinkPolicies) := by
  obtain ⟨sp, css, gh, dr, rfl⟩ := evalModule_shape h
  exact ⟨rfl, rfl, ⟨"throw", rfl, by decide⟩, ⟨"warn", rfl, by decide⟩⟩

/-- The link-integrity policy of the sample checkout. -/
theorem link_integrity_policy_witness :
    evalModule sampleEnv = .ok sampleConfig ∧
    sampleConfig.get "onBrokenLinks" = .str "throw" ∧
    sampleConfig.get "onBrokenMarkdownLinks" = .str "warn" ∧
    (∃ s, sampleConfig.get "onBrokenLinks" = .str s ∧ s ∈ brokenLinkPolicies) ∧
    (∃ s, sampleConfig.get "onBrokenMarkdownLinks" = .str s ∧ s ∈ brokenLinkPolicies) :=
  ⟨rfl, link_integrity_policy sampleEnv sampleConfig rfl⟩

/-- C8: with `org` the value of `organizationName` and `proj` the value of `projectName`,
`baseUrl` is `/` ++ proj ++ `/`, and the navbar has exactly one external-link item, whose
`href` is `https://github.com/` ++ org ++ `/` ++ proj. -/
theorem deployment_fields_consistent (env : Env) (cfg : JsVal) (h : evalModule env = .ok cfg) :
    ∃ org proj items,
      cfg.get "organizationName" = .str org ∧
      cfg.get "projectName" = .str proj ∧
      cfg.get "baseUrl" = .str ("/" ++ proj ++ "/") ∧
      cfg.getPath ["themeConfig", "navbar", "items"] = .arr items ∧
      (∃ link, items.filter (fun item => !isSidebarLink item) = [link]) ∧
      ∀ item ∈ items, isSidebarLink item = false →
        item.get "href" = .str ("https://github.com/" ++ org ++ "/" ++ proj) := by
  obtain ⟨sp, css, gh, dr, rfl⟩ := evalModule_shape h
  refine ⟨"Escuhlade", "data-governance-pipeline", _, rfl, rfl, ?_, rfl, ⟨_, rfl⟩, ?_⟩
  · have hs : "/" ++ "data-governance-pipeline" ++ "/" = "/data-governance-pipeline/" := by
      decide
    rw [hs]; rfl
  · intro item hmem hk
    simp only [List.mem_cons, List.mem_singleton, List.not_mem_nil, or_false] at hmem
    rcases hmem with rfl | rfl
    · exact absurd hk (by decide)
    · have hs : "https://github.com/" ++ "Escuhlade" ++ "/" ++ "data-governance-pipeline"
          = "https://github.com/Escuhlade/data-governance-pipeline" := by decide
      rw [hs]; rfl

/-- The deployment fields of the sample checkout agree with one another. -/
theorem deployment_fields_consistent_witness :
    evalModule sampleEnv = .ok sampleConfig ∧
    ∃ org proj items,
      sampleConfig.get "organizationName" = .str org ∧
      sampleConfig.get "projectName" = .str proj ∧
      sampleConfig.get "baseUrl" = .str ("/" ++ proj ++ "/") ∧
      sampleConfig.getPath ["themeConfig", "navbar", "items"] = .arr items ∧
      (∃ link, items.filter (fun item => !isSidebarLink item) = [link]) ∧
      ∀ item ∈ items, isSidebarLink item = false →
        item.get "href" = .str ("https://github.com/" ++ org ++ "/" ++ proj) :=
  ⟨rfl, deployment_fields_consistent sampleEnv sampleConfig rfl⟩

/-- C9: `markdown.mermaid` is `true` if and only if the `themes` sequence contains
`@docusaurus/theme-mermaid`; both sides hold, and `themes` is exactly that one extension. -/
theorem mermaid_toggle_agrees (env : Env) (cfg : JsVal) (h : evalModule env = .ok cfg) :
    ∃ themes,
      cfg.get "themes" = .arr themes ∧
      (cfg.getPath ["markdown", "mermaid"] = .bool true ↔
        .str "@docusaurus/theme-mermaid" ∈ themes) ∧
      cfg.getPath ["markdown", "mermaid"] = .bool true ∧
      .str "@docusaurus/theme-mermaid" ∈ themes ∧
      themes = [.str "@docusaurus/theme-mermaid"] := by
  obtain ⟨sp, css, gh, dr, rfl⟩ := evalModule_shape h
  have hm : JsVal.str "@docusaurus/theme-mermaid" ∈ [JsVal.str "@docusaurus/theme-mermaid"] :=
    List.mem_singleton.mpr rfl
  exact ⟨_, rfl, ⟨fun _ => hm, fun _ => rfl⟩, rfl, hm, rfl⟩

/-- The diagram toggle and the theme pipeline of the sample checkout agree. -/
theorem mermaid_toggle_agrees_witness :
    evalModule sampleEnv = .ok sampleConfig ∧
    ∃ themes,
      sampleConfig.get "themes" = .arr themes ∧
      (sampleConfig.getPath ["markdown", "mermaid"] = .bool true ↔
        .str "@docusaurus/theme-mermaid" ∈ themes) ∧
      sampleConfig.getPath ["markdown", "mermaid"] = .bool true ∧
      .str "@docusaurus/theme-mermaid" ∈ themes ∧
      themes = [.str "@docusaurus/theme-mermaid"] :=
  ⟨rfl, mermaid_toggle_agrees sampleEnv sampleConfig rfl⟩

/-! ## Evaluation and the environment -/

/-- C4, as stated, fails: in a checkout without `sidebars.js` the evaluation throws the
module-not-found error of `require.resolve` and exports no record. -/
theorem evalModule_missing_sidebars_fails :
    evalModule missingSidebarsEnv = .error (.moduleNotFound "./sidebars.js") ∧
    ¬ ∃ cfg, evalModule missingSidebarsEnv = .ok cfg := by
  have h : evalModule missingSidebarsEnv = .error (.moduleNotFound "./sidebars.js") := rfl
  refine ⟨h, ?_⟩
  rintro ⟨cfg, hc⟩
  rw [h] at hc
  cases hc

/-- C4, amended: evaluation yields a record exactly when `prism-react-renderer` loads with
exports that are not nullish and carry a `themes` that is not nullish, and `./sidebars.js` and
`./src/css/custom.css` both resolve; the record is then the literal with the resolved paths,
the year of the clock and the two theme values filled in. In every other state of the
environment the evaluation ends in an error. -/
theorem evalModule_ok_iff_resolved (env : Env) :
    (∀ cfg, evalModule env = .ok cfg ↔
      ∃ prism sidebarPath customCss,
        env.require "prism-react-renderer" = .ok prism ∧
        prism.nullish = false ∧
        (prism.get "themes").nullish = false ∧
        env.resolve "./sidebars.js" = .ok sidebarPath ∧
        env.resolve "./src/css/custom.css" = .ok customCss ∧
        cfg = config sidebarPath customCss (getFullYear env)
          ((prism.get "themes").get "github") ((prism.get "themes").get "dracula")) ∧
    ((¬ ∃ cfg, evalModule env = .ok cfg) → ∃ e, evalModule env = .error e) := by
  constructor
  · intro cfg
    constructor
    · intro h
      obtain ⟨prism, themes, sp, css, gh, dr, h1, h2, h3, h4, h5, h6, hc⟩ :=
        evalModule_eq_config h
      have hp : prism.nullish = false ∧ themes = prism.get "themes" := by
        cases prism <;> first
          | (simp [JsVal.readProp] at h2; done)
          | (simp only [JsVal.readProp, Except.ok.injEq] at h2; exact ⟨rfl, h2.symm⟩)
      have ht : themes.nullish = false ∧ gh = themes.get "github" ∧
          dr = themes.get "dracula" := by
        cases themes <;> first
          | (simp [JsVal.readProp] at h5; done)
          | (simp only [JsVal.readProp, Except.ok.injEq] at h5 h6
             exact ⟨rfl, h5.symm, h6.symm⟩)
      obtain ⟨hp1, rfl⟩ := hp
      obtain ⟨ht1, rfl, rfl⟩ := ht
      exact ⟨prism, sp, css, h1, hp1, ht1, h3, h4, hc⟩
    · rintro ⟨prism, sp, css, h1, hp, ht, h3, h4, rfl⟩
      have h2 : prism.readProp "themes" = .ok (prism.get "themes") := by
        cases prism <;> first | (simp [JsVal.nullish] at hp; done) | rfl
      have h5 : ∀ key, (prism.get "themes").readProp key = .ok ((prism.get "themes").get key) := by
        intro key
        cases hth : prism.get "themes" <;> first
          | (rw [hth] at ht; simp [JsVal.nullish] at ht; done)
          | rfl
      unfold evalModule
      rw [h1]
      simp only [bind, Except.bind, h2, h3, h4, h5, pure, Except.pure]
  · intro hno
    cases hres : evalModule env with
    | error e => exact ⟨e, rfl⟩
    | ok cfg => exact absurd ⟨cfg, hres⟩ hno

/-- The sample checkout resolves everything, so its evaluation yields the record. -/
theorem evalModule_ok_iff_resolved_witness : evalModule sampleEnv = .ok sampleConfig :=
  ((evalModule_ok_iff_resolved sampleEnv).1 sampleConfig).mpr
    ⟨_, _, _, rfl, rfl, rfl, rfl, rfl, rfl⟩

/-! ## Serialising the record -/

/-- C5: when the `github` and `dracula` themes that `prism-react-renderer` exports are JSON
data, as the plain theme objects of the package are, serialising the exported record and
deserialising the result reproduces the record itself; so every field reads back as it was,
and in particular each of the two theme values and the footer copyright text round-trips on
its own. -/
theorem jsonRoundTrip_config (env : Env) (prism cfg : JsVal)
    (hreq : env.require "prism-react-renderer" = .ok prism)
    (hgh : isJsonData (prism.getPath ["themes", "github"]) = true)
    (hdr : isJsonData (prism.getPath ["themes", "dracula"]) = true)
    (h : evalModule env = .ok cfg) :
    jsonRoundTrip cfg = .wrote cfg ∧
    (∀ back, jsonRoundTrip cfg = .wrote back → ∀ p, back.getPath p = cfg.getPath p) ∧
    cfg.getPath ["themeConfig", "prism", "theme"] = prism.getPath ["themes", "github"] ∧
    cfg.getPath ["themeConfig", "prism", "darkTheme"] = prism.getPath ["themes", "dracula"] ∧
    jsonRoundTrip (cfg.getPath ["themeConfig", "prism", "theme"]) =
      .wrote (cfg.getPath ["themeConfig", "prism", "theme"]) ∧
    jsonRoundTrip (cfg.getPath ["themeConfig", "prism", "darkTheme"]) =
      .wrote (cfg.getPath ["themeConfig", "prism", "darkTheme"]) ∧
    jsonRoundTrip (cfg.getPath copyrightPath) = .wrote (cfg.getPath copyrightPath) := by
  obtain ⟨prism1, themes, sp, css, gh, dr, h1, h2, _, _, h5, h6, rfl⟩ := evalModule_eq_config h
  rw [hreq] at h1
  cases h1
  have hth : themes = prism.get "themes" := by
    cases prism <;> first
      | (simp [JsVal.readProp] at h2; done)
      | (simp only [JsVal.readProp, Except.ok.injEq] at h2; exact h2.symm)
  subst hth
  have hg : gh = prism.getPath ["themes", "github"] ∧
      dr = prism.getPath ["themes", "dracula"] := by
    cases hth : prism.get "themes" <;> rw [hth] at h5 h6 <;> first
      | (simp [JsVal.readProp] at h5; done)
      | (simp only [JsVal.readProp, Except.ok.injEq] at h5 h6
         simp only [JsVal.getPath, hth]
         exact ⟨h5.symm, h6.symm⟩)
  obtain ⟨rfl, rfl⟩ := hg
  have hcfg : jsonRoundTrip (config sp css (getFullYear env) (prism.getPath ["themes", "github"])
      (prism.getPath ["themes", "dracula"])) = .wrote (config sp css (getFullYear env)
      (prism.getPath ["themes", "github"]) (prism.getPath ["themes", "dracula"])) := by
    rw [jsonRoundTrip_eq_iff, isJsonData_config, hgh, hdr]
    rfl
  refine ⟨hcfg, ?_, rfl, rfl, (jsonRoundTrip_eq_iff _).mpr hgh, (jsonRoundTrip_eq_iff _).mpr hdr,
    rfl⟩
  intro back hb p
  rw [hcfg] at hb
  cases hb
  rfl

/-- The sample checkout, whose package exports both themes as plain data: the record is
reproduced. -/
theorem jsonRoundTrip_config_witness :
    evalModule sampleEnv = .ok sampleConfig ∧
    isJsonData sampleGithubTheme = true ∧
    isJsonData sampleDraculaTheme = true ∧
    jsonRoundTrip sampleConfig = .wrote sampleConfig ∧
    (∀ back, jsonRoundTrip sampleConfig = .wrote back →
      ∀ p, back.getPath p = sampleConfig.getPath p) ∧
    sampleConfig.getPath ["themeConfig", "prism", "theme"] = sampleGithubTheme ∧
    sampleConfig.getPath ["themeConfig", "prism", "darkTheme"] = sampleDraculaTheme ∧
    jsonRoundTrip (sampleConfig.getPath ["themeConfig", "prism", "theme"]) =
      .wrote (sampleConfig.getPath ["themeConfig", "prism", "theme"]) ∧
    jsonRoundTrip (sampleConfig.getPath ["themeConfig", "prism", "darkTheme"]) =
      .wrote (sampleConfig.getPath ["themeConfig", "prism", "darkTheme"]) ∧
    jsonRoundTrip (sampleConfig.getPath copyrightPath) =
      .wrote (sampleConfig.getPath copyrightPath) :=
  ⟨rfl, rfl, rfl,
    jsonRoundTrip_config sampleEnv
      (.obj [("Highlight", .func []),
        ("themes", .obj [("dracula", sampleDraculaTheme), ("github", sampleGithubTheme)])])
      sampleConfig rfl rfl rfl rfl⟩

/-! ## The clock -/

/-- C7: the record depends on the clock only through `themeConfig.footer.copyright`. If the
evaluation under one clock yields a record, so does the evaluation under any other clock;
the two records agree at every path that does not lead to the copyright text; the copyright
text of each is `Built by Aaiyan Virji · ` followed by the decimal full year of its clock;
and two clocks in the same year yield the same record. -/
theorem clock_only_through_copyright (env : Env) (t1 t2 : Int) (z1 z2 : Int → Int)
    (cfg1 : JsVal) (h : evalModule (env.withClock t1 z1) = .ok cfg1) :
    ∃ cfg2, evalModule (env.withClock t2 z2) = .ok cfg2 ∧
      (∀ p, ¬ p <+: copyrightPath → cfg1.getPath p = cfg2.getPath p) ∧
      cfg1.getPath copyrightPath =
        .str ("Built by Aaiyan Virji · " ++ toString (getFullYear (env.withClock t1 z1))) ∧
      cfg2.getPath copyrightPath =
        .str ("Built by Aaiyan Virji · " ++ toString (getFullYear (env.withClock t2 z2))) ∧
      (getFullYear (env.withClock t1 z1) = getFullYear (env.withClock t2 z2) → cfg1 = cfg2) := by
  obtain ⟨prism, themes, sp, css, gh, dr, h1, h2, h3, h4, h5, h6, rfl⟩ := evalModule_eq_config h
  have h1b : (env.withClock t2 z2).require "prism-react-renderer" = .ok prism := h1
  have h3b : (env.withClock t2 z2).resolve "./sidebars.js" = .ok sp := h3
  have h4b : (env.withClock t2 z2).resolve "./src/css/custom.css" = .ok css := h4
  refine ⟨config sp css (getFullYear (env.withClock t2 z2)) gh dr, ?_, ?_, rfl, rfl, ?_⟩
  · unfold evalModule
    rw [h1b]
    simp only [bind, Except.bind, h2, h3b, h4b, h5, h6, pure, Except.pure]
  · intro p hp
    exact config_getPath_year sp css _ _ gh dr p hp
  · intro hy
    rw [hy]

/-- The sample checkout at 2026-11-06T12:00:00Z and at 2026-12-31T23:59:59Z, one hour east of
UTC for the second: the first clock reads 2026, the second 2027, and the records differ in
the copyright text only. -/
theorem clock_only_through_copyright_witness :
    evalModule (sampleEnv.withClock 1793966400000 (fun _ => 0)) = .ok sampleConfig ∧
    getFullYear (sampleEnv.withClock 1793966400000 (fun _ => 0)) = 2026 ∧
    getFullYear (sampleEnv.withClock 1798761599000 (fun _ => 3600000)) = 2027 ∧
    sampleConfig.getPath copyrightPath = .str "Built by Aaiyan Virji · 2026" ∧
    ∃ cfg2, evalModule (sampleEnv.withClock 1798761599000 (fun _ => 3600000)) = .ok cfg2 ∧
      (∀ p, ¬ p <+: copyrightPath → sampleConfig.getPath p = cfg2.getPath p) ∧
      sampleConfig.getPath copyrightPath =
        .str ("Built by Aaiyan Virji · " ++
          toString (getFullYear (sampleEnv.withClock 1793966400000 (fun _ => 0)))) ∧
      cfg2.getPath copyrightPath =
        .str ("Built by Aaiyan Virji · " ++
          toString (getFullYear (sampleEnv.withClock 1798761599000 (fun _ => 3600000)))) ∧
      (getFullYear (sampleEnv.withClock 1793966400000 (fun _ => 0)) =
          getFullYear (sampleEnv.withClock 1798761599000 (fun _ => 3600000)) →
        sampleConfig = cfg2) :=
  ⟨rfl, by decide, by decide, rfl,
    clock_only_through_copyright sampleEnv 1793966400000 1798761599000 (fun _ => 0)
      (fun _ => 3600000) sampleConfig rfl⟩

end DocsSite
